import Mathlib

/-!
Shallow embedding of the subscription-lifecycle core of the Trade_Lexx
telegram payment bot (files `bot/models.py`, `bot/db_utils.py`,
`bot/handlers.py`, `bot/admin_handlers.py`), together with theorems about
the behaviour of the embedded operations.

Modelling conventions:

* Timestamps are integers (seconds); `datetime.timedelta(days=d)` becomes
  `d * 86400` seconds.
* The SQLAlchemy `AsyncSession` is modelled by `Session`: a durable store
  `db` plus the session view `cur` holding all staged (uncommitted)
  writes.  Reads go through `cur` (the session sees its own pending
  changes), `commitE` publishes `cur` into `db` after checking the
  declarative constraints of `models.py`, and a rollback simply discards
  the session.
* Autoincrement primary keys are modelled by `nextId` (one more than the
  maximum id present), assigned when the row is staged.
* Subscription statuses are the literal strings used by the source:
  `"pending_payment"`, `"active"`, `"expired"`, `"cancelled"`.
-/

namespace TradeLexx

/-- User row (`models.py`, class `User`).  The timestamp bookkeeping columns
are omitted; no modelled operation reads them. -/
structure User where
  id : Nat
  telegram_id : Int
  username : Option String
  first_name : Option String
  last_name : Option String
  is_active : Bool
deriving Repr, DecidableEq

/-- Chat row (`models.py`, class `Chat`).  `price_amount` (a `Numeric(10,2)`)
is modelled in minor units as an integer. -/
structure Chat where
  id : Nat
  telegram_chat_id : Int
  title : String
  price_amount : Int
  price_currency : String
  crypto_wallet_address : Option String
  crypto_network : Option String
  is_active : Bool
deriving Repr, DecidableEq

/-- The JSON payment metadata stored by `select_chat_callback`
(`handlers.py` lines 181-185): the selected chat's wallet address, its
network label and the generated payment reference. -/
structure PaymentDetails where
  generated_wallet : Option String
  network : Option String
  reference : String
deriving Repr, DecidableEq

/-- Subscription row (`models.py`, class `Subscription`). -/
structure Subscription where
  id : Nat
  user_id : Nat
  chat_id : Nat
  start_date : Int
  end_date : Int
  status : String
  payment_id : Option String
  payment_details : Option PaymentDetails
deriving Repr, DecidableEq

/-- The three relations of the durable store. -/
structure Store where
  users : List User
  chats : List Chat
  subscriptions : List Subscription
deriving Repr, DecidableEq

/-- An SQLAlchemy session: the durable store `db` as of the last commit,
and the session's own view `cur` including staged writes. -/
structure Session where
  db : Store
  cur : Store
deriving Repr, DecidableEq

/-- Fresh autoincrement key: one more than the largest key in use. -/
def nextId (l : List Nat) : Nat := l.foldr max 0 + 1

def nextUserId (db : Store) : Nat := nextId (db.users.map (·.id))

def nextSubId (db : Store) : Nat := nextId (db.subscriptions.map (·.id))

def nextChatId (db : Store) : Nat := nextId (db.chats.map (·.id))

/-- Key list without duplicates, used for the `unique=True` and primary-key
constraints declared in `models.py`. -/
def nodupKeys {β : Type} [BEq β] : List β → Bool
  | [] => true
  | b :: l => !(l.contains b) && nodupKeys l

/-- Uniqueness of `subscriptions.payment_id`, which is `unique` but
nullable: only the present (`some`) values may not repeat. -/
def nodupPids : List (Option String) → Bool
  | [] => true
  | none :: l => nodupPids l
  | some p :: l => !(l.contains (some p)) && nodupPids l

/-- The declarative constraints of `models.py`: primary keys, the unique
columns `users.telegram_id`, `chats.telegram_chat_id` and
`subscriptions.payment_id`, and the two non-nullable foreign keys
`subscriptions.user_id` and `subscriptions.chat_id`. -/
def checkStore (db : Store) : Bool :=
  nodupKeys (db.users.map (·.id)) &&
  nodupKeys (db.chats.map (·.id)) &&
  nodupKeys (db.subscriptions.map (·.id)) &&
  nodupKeys (db.users.map (·.telegram_id)) &&
  nodupKeys (db.chats.map (·.telegram_chat_id)) &&
  nodupPids (db.subscriptions.map (·.payment_id)) &&
  db.subscriptions.all (fun s =>
    db.users.any (fun u => u.id == s.user_id) &&
    db.chats.any (fun c => c.id == s.chat_id))

/-- Store-level errors: `integrityError` is SQLAlchemy's `IntegrityError`
(unique-constraint or referential-integrity violation), a subclass of
`SQLAlchemyError`. -/
inductive DbErr where
  | integrityError
deriving Repr, DecidableEq

/-- Commit, that is `session.commit()`: publish the staged state if it satisfies the
declared constraints, else raise `IntegrityError` (the session itself is
then rolled back by the calling context manager). -/
def commitE (s : Session) : Except DbErr Session :=
  if checkStore s.cur then .ok { db := s.cur, cur := s.cur } else .error .integrityError

/-- A session freshly opened on durable state `db`. -/
def openSession (db : Store) : Session := { db := db, cur := db }

/-- The empty store. -/
def emptyStore : Store := { users := [], chats := [], subscriptions := [] }

/-- A user freshly inserted by `get_user_by_telegram_id` (`db_utils.py`
line 23): only `telegram_id` is set, the other columns take their model
defaults. -/
def freshUser (db : Store) (telegram_id : Int) : User :=
  { id := nextUserId db, telegram_id := telegram_id, username := none,
    first_name := none, last_name := none, is_active := true }

/-- Repository operation `get_user_by_telegram_id` (`db_utils.py` lines
13-34).  Looks the user up by `telegram_id`; when absent it inserts a new
user and, unlike every other repository operation, COMMITS the session
itself (line 25, "Commit for new user creation").  On a commit error it
rolls back and re-raises (lines 30-33), so the caller sees the error and
no session survives. -/
def get_user_by_telegram_id (s : Session) (telegram_id : Int) :
    Except DbErr (Session × User) :=
  match s.cur.users.find? (fun u => u.telegram_id == telegram_id) with
  | some user => .ok (s, user)
  | none =>
    let user := freshUser s.cur telegram_id
    let staged : Session := { s with cur := { s.cur with users := s.cur.users ++ [user] } }
    match commitE staged with
    | .ok s2 => .ok (s2, user)
    | .error e => .error e

/-- Repository operation `create_subscription` (`db_utils.py` lines 36-63).
Computes `start_date = utcnow()` and `end_date = start + duration_days`,
stages the new row and returns it; the commit is left to the caller
(source comment lines 55-57). -/
def create_subscription (s : Session) (user_id chat_id : Nat)
    (duration_days : Nat) (now : Int) (status : String)
    (payment_id : Option String) (payment_details : Option PaymentDetails) :
    Session × Subscription :=
  let sub : Subscription :=
    { id := nextSubId s.cur, user_id := user_id, chat_id := chat_id,
      start_date := now, end_date := now + duration_days * 86400,
      status := status, payment_id := payment_id,
      payment_details := payment_details }
  ({ s with cur := { s.cur with subscriptions := s.cur.subscriptions ++ [sub] } }, sub)

/-- Repository query `get_active_subscriptions` (`db_utils.py` lines
65-84): subscriptions joined to their user, filtered by the user's
`telegram_id`, status `active` and `end_date > now`. -/
def get_active_subscriptions (s : Session) (user_telegram_id : Int) (now : Int) :
    List Subscription :=
  s.cur.subscriptions.filter (fun sub =>
    (match s.cur.users.find? (fun u => u.id == sub.user_id) with
     | some u => u.telegram_id == user_telegram_id
     | none => false) &&
    sub.status == "active" && decide (now < sub.end_date))

/-- Repository query `get_subscriptions_ending_soon` (`db_utils.py` lines
86-105): status `active`, `now < end_date <= now + days_ahead`. -/
def get_subscriptions_ending_soon (s : Session) (days_ahead : Nat) (now : Int) :
    List Subscription :=
  s.cur.subscriptions.filter (fun sub =>
    sub.status == "active" && decide (now < sub.end_date) &&
    decide (sub.end_date <= now + days_ahead * 86400))

/-- The WHERE clause of `get_expired_subscriptions` (`db_utils.py` line
116): status `active` and `end_date <= now`. -/
def expiredPred (now : Int) (sub : Subscription) : Bool :=
  sub.status == "active" && decide (sub.end_date <= now)

/-- Repository query `get_expired_subscriptions` (`db_utils.py` lines
107-125): the subscriptions satisfying `expiredPred`. -/
def get_expired_subscriptions (s : Session) (now : Int) : List Subscription :=
  s.cur.subscriptions.filter (expiredPred now)

/-- Repository operation `update_subscription_status` (`db_utils.py` lines
127-149): select the row by primary key, mutate its `status` in the
session, return it; `none` when absent.  No commit (source comment lines
137-139).  The id is the primary key, so at most one row matches; the
row-wise map realises the single mutation. -/
def update_subscription_status (s : Session) (subscription_id : Nat)
    (new_status : String) : Session × Option Subscription :=
  match s.cur.subscriptions.find? (fun sub => sub.id == subscription_id) with
  | some sub =>
    let subs := s.cur.subscriptions.map (fun t =>
      if t.id == subscription_id then { t with status := new_status } else t)
    ({ s with cur := { s.cur with subscriptions := subs } },
     some { sub with status := new_status })
  | none => (s, none)

/-- Repository query `get_chat_by_id` (`db_utils.py` lines 151-167): lookup
by primary key only — the `is_active` flag is NOT consulted. -/
def get_chat_by_id (s : Session) (chat_id : Nat) : Option Chat :=
  s.cur.chats.find? (fun c => c.id == chat_id)

/-- Repository query `get_all_managed_chats` (`db_utils.py` lines 169-182):
all chats with `is_active = True`. -/
def get_all_managed_chats (s : Session) : List Chat :=
  s.cur.chats.filter (·.is_active)

/-- Repository query `get_subscription_by_id` (`db_utils.py` lines
184-204). -/
def get_subscription_by_id (s : Session) (subscription_id : Nat) :
    Option Subscription :=
  s.cur.subscriptions.find? (fun sub => sub.id == subscription_id)

/-- Repository operation `create_chat` (`db_utils.py` lines 209-256):
upsert keyed on `telegram_chat_id`.  Updates the existing row in place or
stages a new one; the caller is responsible for `session.commit()`
(docstring line 216). -/
def create_chat (s : Session) (telegram_chat_id : Int) (title : String)
    (price_amount : Int) (price_currency : String)
    (crypto_wallet_address crypto_network : Option String)
    (is_active : Bool) : Session × Chat :=
  match s.cur.chats.find? (fun c => c.telegram_chat_id == telegram_chat_id) with
  | some existing =>
    let chat := { existing with
                  title := title, price_amount := price_amount,
                  price_currency := price_currency,
                  crypto_wallet_address := crypto_wallet_address,
                  crypto_network := crypto_network, is_active := is_active }
    let chats := s.cur.chats.map (fun c =>
      if c.telegram_chat_id == telegram_chat_id then chat else c)
    ({ s with cur := { s.cur with chats := chats } }, chat)
  | none =>
    let chat : Chat :=
      { id := nextChatId s.cur, telegram_chat_id := telegram_chat_id,
        title := title, price_amount := price_amount,
        price_currency := price_currency,
        crypto_wallet_address := crypto_wallet_address,
        crypto_network := crypto_network, is_active := is_active }
    ({ s with cur := { s.cur with chats := s.cur.chats ++ [chat] } }, chat)

/-- The keyword arguments accepted by `update_chat_details` (`db_utils.py`
line 262): each field patched only when supplied. -/
structure ChatPatch where
  title : Option String := none
  price_amount : Option Int := none
  price_currency : Option String := none
  crypto_wallet_address : Option (Option String) := none
  crypto_network : Option (Option String) := none
  is_active : Option Bool := none
deriving Repr

/-- Apply a `ChatPatch` to a chat row (the `setattr` loop of
`update_chat_details`). -/
def applyChatPatch (p : ChatPatch) (c : Chat) : Chat :=
  { c with
    title := p.title.getD c.title,
    price_amount := p.price_amount.getD c.price_amount,
    price_currency := p.price_currency.getD c.price_currency,
    crypto_wallet_address := p.crypto_wallet_address.getD c.crypto_wallet_address,
    crypto_network := p.crypto_network.getD c.crypto_network,
    is_active := p.is_active.getD c.is_active }

/-- Repository operation `update_chat_details` (`db_utils.py` lines
259-283): fetch by primary key, patch fields in the session, return the
row; no commit (docstring line 263). -/
def update_chat_details (s : Session) (chat_id : Nat) (p : ChatPatch) :
    Session × Option Chat :=
  match get_chat_by_id s chat_id with
  | some chat =>
    let chats := s.cur.chats.map (fun c =>
      if c.id == chat_id then applyChatPatch p c else c)
    ({ s with cur := { s.cur with chats := chats } }, some (applyChatPatch p chat))
  | none => (s, none)

/-- Repository operation `delete_chat_by_id` (`db_utils.py` lines 285-308):
fetch by primary key; when found, stage the deletion (`session.delete`)
and return `true`, else return `false`.  No commit (docstring line 289);
any constraint violation only surfaces at the caller's commit. -/
def delete_chat_by_id (s : Session) (chat_id : Nat) : Session × Bool :=
  match get_chat_by_id s chat_id with
  | some _ =>
    ({ s with cur := { s.cur with chats := s.cur.chats.filter (fun c => !(c.id == chat_id)) } },
     true)
  | none => (s, false)

/-- The identity fields of the inbound callback's `query.from_user`
(`handlers.py` lines 124, 159-167).  Optional name fields model Python's
truthiness test on them (`none` = absent/falsy). -/
structure CallerInfo where
  telegram_id : Int
  username : Option String
  first_name : Option String
  last_name : Option String
deriving Repr, DecidableEq

/-- The opportunistic name refresh of `select_chat_callback` (`handlers.py`
lines 159-167): each field is overwritten when the caller supplies a
truthy value, else kept. -/
def touchName (old new : Option String) : Option String :=
  match new with
  | some v => some v
  | none => old

/-- The payment reference generated at `handlers.py` line 172:
`f"PAYREF-{uuid.uuid4().hex[:10].upper()}"`.  The argument is the
`uuid4().hex` value (32 lowercase hexadecimal characters); the slice takes
its first 10 characters and `.upper()` maps each through `Char.toUpper`. -/
def mkPaymentRef (uuidHex : String) : String :=
  "PAYREF-" ++ String.mk ((uuidHex.toList.take 10).map Char.toUpper)

/-- Result of `select_chat_callback` as observable by the user:
`chatNotFound` is the "Selected chat not found" message (line 148),
`created` carries the staged-and-committed pending subscription (lines
174-209), `dbError` the generic database-failure message of the
`SQLAlchemyError` handler (lines 211-213). -/
inductive SelectOutcome where
  | chatNotFound
  | created (sub : Subscription)
  | dbError
deriving Repr, DecidableEq

/-- Handler `select_chat_callback` (`handlers.py` lines 121-219).  Inside
one session: fetch the chat by primary key (line 145; existence only, the
`is_active` flag is not re-checked), resolve the caller via
`get_user_by_telegram_id` (line 151; may itself commit a new user), patch
the caller's display names (lines 159-167), stage the pending subscription
with the generated payment reference and metadata (lines 171-187), and
commit (line 188).  On a database error the transaction rolls back to the
last commit; any user row committed inside `get_user_by_telegram_id`
survives. -/
def select_chat_callback (db : Store) (caller : CallerInfo) (chat_id : Nat)
    (now : Int) (uuidHex : String) : Store × SelectOutcome :=
  let s0 := openSession db
  match get_chat_by_id s0 chat_id with
  | none => (db, .chatNotFound)
  | some chat =>
    match get_user_by_telegram_id s0 caller.telegram_id with
    | .error _ => (db, .dbError)
    | .ok (s1, user) =>
      let user1 := { user with
                     username := touchName user.username caller.username,
                     first_name := touchName user.first_name caller.first_name,
                     last_name := touchName user.last_name caller.last_name }
      let users := s1.cur.users.map (fun w => if w.id == user.id then user1 else w)
      let s2 := { s1 with cur := { s1.cur with users := users } }
      let payment_reference := mkPaymentRef uuidHex
      let r := create_subscription s2 user.id chat.id 30 now "pending_payment"
        (some payment_reference)
        (some { generated_wallet := chat.crypto_wallet_address,
                network := chat.crypto_network,
                reference := payment_reference })
      match commitE r.1 with
      | .ok s4 => (s4.db, .created r.2)
      | .error _ => (r.1.db, .dbError)

/-- Result of `confirm_payment_callback` as observable by the user.
`notFound` is the "Subscription not found" message (line 247).
`nameError` models the `NameError` raised at line 250: the guard
`subscription_to_update.user_id != user.id` reads the local name `user`,
which is never assigned anywhere in `confirm_payment_callback`; Python
raises before the comparison, the generic `except Exception` branch (lines
295-300) reports "An unexpected error occurred", and the transaction
context rolls back.  The remaining constructors name the outcomes of the
source's lines 250-281 — the ownership rejection (line 252), the
idempotent already-active reply (line 257) and the activation (lines
262-281) — all of which are unreachable dead code behind the raise. -/
inductive ConfirmOutcome where
  | notFound
  | nameError
  | notYourSubscription
  | alreadyActive (end_date : Int)
  | activated (end_date : Int)
deriving Repr, DecidableEq

/-- Handler `confirm_payment_callback` (`handlers.py` lines 222-300).
Fetches the subscription by id (line 243); when absent, reports not-found;
when present, evaluation of line 250 raises `NameError` (see
`ConfirmOutcome.nameError`), so the handler always fails without staging
or committing anything — the store is returned unchanged. -/
def confirm_payment_callback (db : Store) (caller_telegram_id : Int)
    (subscription_id : Nat) : Store × ConfirmOutcome :=
  let s0 := openSession db
  match get_subscription_by_id s0 subscription_id with
  | none => (db, .notFound)
  | some _ => (db, .nameError)

/-- Observable events of the scheduled jobs, in program order:
`flip i` is the staging of subscription `i`'s status update inside the
sweep's transaction, `notifyExpiry i ok` the expiry notification for
subscription `i` (sent to its user; `ok` records whether the outward send
succeeded), `notifyReminder i ok` the renewal reminder for subscription
`i`, and `commitEv` the `session.commit()` call. -/
inductive SweepEv where
  | flip (subId : Nat)
  | notifyExpiry (subId : Nat) (ok : Bool)
  | notifyReminder (subId : Nat) (ok : Bool)
  | commitEv
deriving Repr, DecidableEq

def SweepEv.isCommitEv : SweepEv → Bool
  | .commitEv => true
  | _ => false

def SweepEv.isNotify : SweepEv → Bool
  | .notifyExpiry _ _ => true
  | .notifyReminder _ _ => true
  | _ => false

/-- True when some notification event occurs strictly before the first
commit event, i.e. while the store transaction is still open. -/
def notifyBeforeCommit (evs : List SweepEv) : Bool :=
  (evs.takeWhile (fun e => !e.isCommitEv)).any (·.isNotify)

/-- Loop body of the sweep (`handlers.py` lines 447-469): stage the flip of
one due subscription to `expired` and, when the row was found, attempt the
expiry notification (failure caught per record, recorded in the event's
`ok` flag); when the row was not found, log and continue (lines 467-469). -/
def sweepStep (notifyOk : Nat → Bool) (acc : Session × List SweepEv)
    (sub : Subscription) : Session × List SweepEv :=
  match update_subscription_status acc.1 sub.id "expired" with
  | (s1, some _) =>
    (s1, acc.2 ++ [.flip sub.id, .notifyExpiry sub.id (notifyOk sub.id)])
  | (s1, none) => (s1, acc.2)

/-- Scheduled job `process_expired_subscriptions` (`handlers.py` lines
430-477).  Within one transaction (line 443): load the due subscriptions
(line 444); for each, run `sweepStep` — the flip is staged and the
notification attempted still inside the transaction; after the loop,
commit the whole batch once (line 470).  `notifyOk` gives each outward
send's outcome.  The only writes are `status` mutations, which none of the
`models.py` constraints mention, so the commit is modelled as
unconditional. -/
def process_expired_subscriptions (db : Store) (now : Int)
    (notifyOk : Nat → Bool) : Store × List SweepEv :=
  let s0 := openSession db
  let expired_subs := get_expired_subscriptions s0 now
  let r := expired_subs.foldl (sweepStep notifyOk) (s0, ([] : List SweepEv))
  (r.1.cur, r.2 ++ [.commitEv])

/-- Scheduled job `send_renewal_reminders` (`handlers.py` lines 386-427):
read-only query followed by one best-effort reminder per record; a send
failure is caught per record (lines 425-426) and the loop continues; the
store is never written. -/
def send_renewal_reminders (db : Store) (days_ahead : Nat) (now : Int)
    (notifyOk : Nat → Bool) : List SweepEv :=
  (get_subscriptions_ending_soon (openSession db) days_ahead now).map
    (fun sub => .notifyReminder sub.id (notifyOk sub.id))

/-- Result of `execute_remove_chat_callback` as observable by the admin:
`removed` is the success message, `chatNotFound` the "not found" message
(`delete_chat_by_id` returned `False`), and `dbError e` the
`SQLAlchemyError` branch (admin_handlers.py lines 323-329), reached when
the commit raises — for a referenced chat, an `IntegrityError`. -/
inductive RemoveOutcome where
  | removed
  | chatNotFound
  | dbError (e : DbErr)
deriving Repr, DecidableEq

/-- Handler `execute_remove_chat_callback` (`admin_handlers.py` lines
285-337): within one transaction, stage the deletion via
`delete_chat_by_id`; when the chat was found, commit; a commit-time
constraint violation rolls the transaction back and is reported as a
database error distinct from not-found. -/
def execute_remove_chat_callback (db : Store) (chat_db_id : Nat) :
    Store × RemoveOutcome :=
  let s0 := openSession db
  let r := delete_chat_by_id s0 chat_db_id
  if r.2 then
    match commitE r.1 with
    | .ok s2 => (s2.db, .removed)
    | .error e => (db, .dbError e)
  else (db, .chatNotFound)

/-- Handler `toggle_chat_status_callback` (`admin_handlers.py` lines
196-252): fetch the chat, flip `is_active` via `update_chat_details`,
commit. -/
def toggle_chat_status_callback (db : Store) (chat_db_id : Nat) : Store :=
  let s0 := openSession db
  match get_chat_by_id s0 chat_db_id with
  | none => db
  | some chat =>
    let r := update_chat_details s0 chat_db_id { is_active := some (!chat.is_active) }
    match commitE r.1 with
    | .ok s2 => s2.db
    | .error _ => db

/-- Handler `confirm_create_chat_callback` (`admin_handlers.py` lines
589-639): one transaction around the `create_chat` upsert, then commit. -/
def confirm_create_chat_callback (db : Store) (telegram_chat_id : Int)
    (title : String) (price_amount : Int) (price_currency : String)
    (crypto_wallet_address crypto_network : Option String) : Store :=
  let r := create_chat (openSession db) telegram_chat_id title price_amount
    price_currency crypto_wallet_address crypto_network true
  match commitE r.1 with
  | .ok s2 => s2.db
  | .error _ => db

/-- The store-mutating entry points of the system: the two user-facing
lifecycle handlers, the two scheduled jobs and the three admin chat
operations.  Each constructor carries the inbound request data and the
ambient inputs (current time, fresh uuid, notification outcomes). -/
inductive Op where
  | selectChat (caller : CallerInfo) (chat_id : Nat) (now : Int) (uuidHex : String)
  | confirmPayment (caller_telegram_id : Int) (subscription_id : Nat)
  | expirySweep (now : Int) (notifyOk : Nat → Bool)
  | reminders (days_ahead : Nat) (now : Int) (notifyOk : Nat → Bool)
  | removeChat (chat_db_id : Nat)
  | toggleChat (chat_db_id : Nat)
  | upsertChat (telegram_chat_id : Int) (title : String) (price_amount : Int)
      (price_currency : String) (crypto_wallet_address crypto_network : Option String)

/-- The durable store produced by running one operation. -/
def runOp (op : Op) (db : Store) : Store :=
  match op with
  | .selectChat caller chat_id now uuidHex =>
    (select_chat_callback db caller chat_id now uuidHex).1
  | .confirmPayment tid subId => (confirm_payment_callback db tid subId).1
  | .expirySweep now notifyOk => (process_expired_subscriptions db now notifyOk).1
  | .reminders _ _ _ => db
  | .removeChat chatId => (execute_remove_chat_callback db chatId).1
  | .toggleChat chatId => toggle_chat_status_callback db chatId
  | .upsertChat tcid title amt curr wallet network =>
    confirm_create_chat_callback db tcid title amt curr wallet network

/-- Subscription lookup by primary key in a store. -/
def findSub (db : Store) (i : Nat) : Option Subscription :=
  db.subscriptions.find? (fun s => s.id == i)

/-- The row-wise effect of one staged flip of the sweep: subscription `j`
has its status set to `expired`, every other row is untouched. -/
def flipExpired (j : Nat) (t : Subscription) : Subscription :=
  if t.id == j then { t with status := "expired" } else t

/-- The row-wise effect of a whole list of staged flips, in order. -/
def applyFlips (js : List Nat) (t : Subscription) : Subscription :=
  js.foldl (fun t j => flipExpired j t) t

/-- Committing a single staged user insert against the CURRENT durable
state: the database enforces the unique constraint on `users.telegram_id`
(`models.py` line 11) when the INSERT is flushed, raising
`IntegrityError` when a row with that `telegram_id` already landed. -/
def insertUserCommit (db : Store) (user : User) : Except DbErr Store :=
  if db.users.any (fun u => u.telegram_id == user.telegram_id) then
    .error .integrityError
  else
    .ok { db with users := db.users ++ [user] }

/-- Two concurrent first-contact calls of `get_user_by_telegram_id`
(`db_utils.py` lines 13-34) for the same `telegram_id`, in the
interleaving where both SELECTs (line 19) run before either INSERT+commit
(lines 23-25) reaches the database.  Caller A commits first; caller B's
insert then violates the unique constraint, and B's `except` branch
(lines 30-33) rolls back and re-raises, so B's caller sees the error
instead of the existing row.  Returns the final durable store and each
caller's outcome. -/
def get_or_create_race (db0 : Store) (telegram_id : Int) :
    Store × Except DbErr User × Except DbErr User :=
  let found := db0.users.find? (fun u => u.telegram_id == telegram_id)
  match found with
  | some u => (db0, .ok u, .ok u)
  | none =>
    let userA := freshUser db0 telegram_id
    match insertUserCommit db0 userA with
    | .error e => (db0, .error e, .error e)
    | .ok db1 =>
      let userB := freshUser db1 telegram_id
      match insertUserCommit db1 userB with
      | .ok db2 => (db2, .ok userA, .ok userB)
      | .error e => (db1, .ok userA, .error e)

/-- The sixteen characters `uuid.uuid4().hex` is built from (letters listed
before digits; only membership matters). -/
def lowerHexChars : List Char :=
  ['a', 'b', 'c', 'd', 'e', 'f', '0', '1', '2', '3', '4', '5', '6', '7', '8', '9']

/-- The uppercase hexadecimal alphabet (letters listed before digits; only
membership matters). -/
def upperHexChars : List Char :=
  ['A', 'B', 'C', 'D', 'E', 'F', '0', '1', '2', '3', '4', '5', '6', '7', '8', '9']

/-- A 32-character uuid hex value used for concrete runs. -/
def exUuidHex : String := "0123456789abcdef0123456789abcdef"

/-- Example user: internal id 1, platform id 555. -/
def exUser : User :=
  { id := 1, telegram_id := 555, username := none, first_name := none,
    last_name := none, is_active := true }

/-- Example chat with the active flag CLEARED. -/
def exInactiveChat : Chat :=
  { id := 1, telegram_chat_id := -100, title := "VIP", price_amount := 1000,
    price_currency := "USD", crypto_wallet_address := some "TWalletAddr",
    crypto_network := some "TRC20", is_active := false }

/-- Example pending subscription of `exUser` to chat 1. -/
def exPendingSub : Subscription :=
  { id := 1, user_id := 1, chat_id := 1, start_date := 0, end_date := 2592000,
    status := "pending_payment", payment_id := some "PAYREF-0000000000",
    payment_details := none }

/-- Example active subscription of `exUser` to chat 1, ending at time 5. -/
def exActiveSub : Subscription :=
  { id := 1, user_id := 1, chat_id := 1, start_date := 0, end_date := 5,
    status := "active", payment_id := some "PAYREF-0000000000",
    payment_details := none }

/-- Store with one user, one (inactive) chat and one pending subscription. -/
def exStorePending : Store :=
  { users := [exUser], chats := [exInactiveChat], subscriptions := [exPendingSub] }

/-- Store with one user, one chat and one active, already-due subscription. -/
def exStoreActive : Store :=
  { users := [exUser], chats := [exInactiveChat], subscriptions := [exActiveSub] }

/-- Store with one user and one inactive chat, no subscriptions. -/
def exStoreNoSubs : Store :=
  { users := [exUser], chats := [exInactiveChat], subscriptions := [] }

/-- Example cancelled subscription of `exUser` to chat 1. -/
def exCancelledSub : Subscription :=
  { id := 1, user_id := 1, chat_id := 1, start_date := 0, end_date := 5,
    status := "cancelled", payment_id := some "PAYREF-0000000000",
    payment_details := none }

/-- Store whose only subscription is cancelled. -/
def exStoreCancelled : Store :=
  { users := [exUser], chats := [exInactiveChat],
    subscriptions := [exCancelledSub] }

lemma mem_le_foldr_max (l : List Nat) (k : Nat) (h : k ∈ l) : k ≤ l.foldr max 0 := by
  induction l with
  | nil => cases h
  | cons a t ih =>
    rcases List.mem_cons.mp h with rfl | h
    · exact le_max_left _ _
    · exact le_trans (ih h) (le_max_right _ _)

lemma nextId_not_mem (l : List Nat) : nextId l ∉ l := by
  intro h
  have := mem_le_foldr_max l _ h
  simp only [nextId] at this
  omega

lemma nodupKeys_iff {β : Type} [BEq β] [LawfulBEq β] (l : List β) :
    nodupKeys l = true ↔ l.Nodup := by
  induction l with
  | nil => simp [nodupKeys]
  | cons a t ih =>
    simp [nodupKeys, Bool.and_eq_true, List.elem_eq_mem, ih, List.nodup_cons]

/-- C1: per the spec's intended ownership guard, confirming another user's
subscription must fail with an authorization error distinguishable from
not-found, with the status unchanged.  The source instead raises
`NameError` at `handlers.py` line 250 (the unbound local `user`), so the
failing input — caller 999 confirming subscription 1 owned by the user
with platform id 555 — produces the generic unexpected-error outcome, not
the ownership rejection of line 252; the store (hence the subscription's
status) is unchanged. -/
theorem c1_confirm_ownership_name_error :
    confirm_payment_callback exStorePending 999 1 = (exStorePending, .nameError) ∧
    ConfirmOutcome.nameError ≠ ConfirmOutcome.notYourSubscription ∧
    ConfirmOutcome.nameError ≠ ConfirmOutcome.notFound := by
  decide

/-- C6: per the spec, confirming an already-active subscription by its
owner must return success reporting the current expiry, with all fields
unchanged.  The source raises `NameError` at `handlers.py` line 250 before
the already-active check of line 255 can run, so the failing input — the
owner (platform id 555) confirming their active subscription 1 — produces
the generic unexpected-error outcome instead of the success-no-op; the
store is unchanged (so the window is indeed not extended, but no success
is reported). -/
theorem c6_confirm_idempotent_name_error :
    confirm_payment_callback exStoreActive 555 1 = (exStoreActive, .nameError) ∧
    ConfirmOutcome.nameError ≠ ConfirmOutcome.alreadyActive exActiveSub.end_date ∧
    ConfirmOutcome.nameError ≠ ConfirmOutcome.activated exActiveSub.end_date := by
  decide

/-- C4 counterexample: the claim says the batch of status flips is
committed before any expiry notification is sent.  Running the sweep on a
store with one due subscription yields the event trace
`[flip 1, notifyExpiry 1 true, commitEv]`: a notification event occurs
strictly before the commit event, i.e. while the sweep's transaction is
still open (the send at `handlers.py` line 457 happens inside the
`session.begin()` block, before the commit at line 470), refuting the
claim. -/
theorem c4_notify_inside_transaction :
    notifyBeforeCommit
      (process_expired_subscriptions exStoreActive 100 (fun _ => true)).2 = true := by
  decide

/-- C5 counterexample: the claim says no repository operation commits
internally.  Invoking `get_user_by_telegram_id` on a session over the
empty store returns with the durable store already changed: the new-user
branch commits the insert itself (`db_utils.py` line 25). -/
theorem c5_get_user_commits_internally :
    (match get_user_by_telegram_id (openSession emptyStore) 555 with
     | .ok (s, _) => s.db
     | .error _ => emptyStore) ≠ emptyStore := by
  decide

/-- C5 as amended: every repository write operation except the
user-creating branch of `get_user_by_telegram_id` only stages its writes
in the session and leaves the durable store unchanged on return —
`create_subscription`, `update_subscription_status`, the chat upsert,
field patch and delete all leave commit/rollback to the caller, and
`get_user_by_telegram_id` also leaves the durable store untouched whenever
the user already exists (returning the row unmutated). -/
theorem c5_repo_operations_stage_only :
    (∀ s uid cid d now st pid det,
      ((create_subscription s uid cid d now st pid det).1).db = s.db) ∧
    (∀ s i st, ((update_subscription_status s i st).1).db = s.db) ∧
    (∀ s tcid t amt curr w n act,
      ((create_chat s tcid t amt curr w n act).1).db = s.db) ∧
    (∀ s i p, ((update_chat_details s i p).1).db = s.db) ∧
    (∀ s i, ((delete_chat_by_id s i).1).db = s.db) ∧
    (∀ s tid u, s.cur.users.find? (fun v => v.telegram_id == tid) = some u →
      get_user_by_telegram_id s tid = .ok (s, u)) := by
  refine ⟨fun s uid cid d now st pid det => rfl, ?_, ?_, ?_, ?_, ?_⟩
  · intro s i st
    unfold update_subscription_status
    cases s.cur.subscriptions.find? (fun sub => sub.id == i) <;> rfl
  · intro s tcid t amt curr w n act
    unfold create_chat
    cases s.cur.chats.find? (fun c => c.telegram_chat_id == tcid) <;> rfl
  · intro s i p
    unfold update_chat_details
    cases get_chat_by_id s i <;> rfl
  · intro s i
    unfold delete_chat_by_id
    cases get_chat_by_id s i <;> rfl
  · intro s tid u h
    unfold get_user_by_telegram_id
    rw [h]

/-- Witness for the amended C5: on the concrete one-user store, looking up
the existing user with platform id 555 returns the stored row with the
session, and in particular the durable store, untouched. -/
theorem c5_repo_operations_stage_only_witness :
    get_user_by_telegram_id (openSession exStoreNoSubs) 555 =
      .ok (openSession exStoreNoSubs, exUser) :=
  c5_repo_operations_stage_only.2.2.2.2.2 (openSession exStoreNoSubs) 555 exUser
    (by decide)

/-- C7 counterexample: the claim says a pending subscription is created
only if the selected chat exists AND its active flag is set.  On a store
whose only chat exists but has `is_active = false`, the chat-selection
flow still creates a `pending_payment` subscription: `select_chat_callback`
checks existence only (`handlers.py` lines 145-149 via `get_chat_by_id`,
which filters on the primary key alone, `db_utils.py` line 157). -/
theorem c7_inactive_chat_still_subscribes :
    (select_chat_callback exStoreNoSubs
        { telegram_id := 555, username := none, first_name := none, last_name := none }
        1 1000 exUuidHex).1.subscriptions.map (·.status) = ["pending_payment"] ∧
    exInactiveChat.is_active = false ∧
    get_chat_by_id (openSession exStoreNoSubs) 1 = some exInactiveChat ∧
    exStoreNoSubs.subscriptions = [] := by
  decide

lemma flipExpired_id (j : Nat) (t : Subscription) : (flipExpired j t).id = t.id := by
  unfold flipExpired
  split <;> rfl

lemma applyFlips_id (js : List Nat) (t : Subscription) : (applyFlips js t).id = t.id := by
  induction js generalizing t with
  | nil => rfl
  | cons j js ih => exact (ih (flipExpired j t)).trans (flipExpired_id j t)

lemma applyFlips_spec (js : List Nat) (t : Subscription) :
    applyFlips js t = if t.id ∈ js then { t with status := "expired" } else t := by
  induction js generalizing t with
  | nil => simp [applyFlips]
  | cons j js ih =>
    have hstep : applyFlips (j :: js) t = applyFlips js (flipExpired j t) := rfl
    rw [hstep, ih]
    by_cases h : t.id = j
    · subst h
      have hflip : flipExpired t.id t = { t with status := "expired" } := by
        simp [flipExpired]
      rw [hflip, if_pos (List.mem_cons_self t.id js)]
      split <;> rfl
    · have hflip : flipExpired j t = t := by
        simp [flipExpired, h]
      rw [hflip]
      simp [List.mem_cons, h]

lemma update_status_components (s : Session) (j : Nat) (st : String) :
    ((update_subscription_status s j st).1).cur.subscriptions =
      s.cur.subscriptions.map (fun t => if t.id == j then { t with status := st } else t) ∧
    ((update_subscription_status s j st).1).cur.users = s.cur.users ∧
    ((update_subscription_status s j st).1).cur.chats = s.cur.chats ∧
    ((update_subscription_status s j st).1).db = s.db := by
  unfold update_subscription_status
  cases h : s.cur.subscriptions.find? (fun sub => sub.id == j) with
  | some sub => exact ⟨rfl, rfl, rfl, rfl⟩
  | none =>
    have h2 : ∀ t ∈ s.cur.subscriptions,
        (if t.id == j then { t with status := st } else t) = t := by
      intro t ht
      rw [if_neg]
      simpa using List.find?_eq_none.mp h t ht
    have hmap : s.cur.subscriptions.map
        (fun t => if t.id == j then { t with status := st } else t) =
        s.cur.subscriptions :=
      (List.map_congr_left h2).trans (List.map_id' _)
    exact ⟨hmap.symm, rfl, rfl, rfl⟩

lemma update_status_found (s : Session) (j : Nat) (st : String)
    (h : ∃ t ∈ s.cur.subscriptions, t.id = j) :
    ∃ s1 x, update_subscription_status s j st = (s1, some x) := by
  obtain ⟨t, ht, hid⟩ := h
  rcases hf : s.cur.subscriptions.find? (fun sub => sub.id == j) with _ | sub
  · exfalso
    have hsome : (s.cur.subscriptions.find? (fun sub => sub.id == j)).isSome = true :=
      List.find?_isSome.mpr ⟨t, ht, by simp [hid]⟩
    rw [hf] at hsome
    cases hsome
  · let subs := s.cur.subscriptions.map (fun t2 =>
      if t2.id == j then { t2 with status := st } else t2)
    refine ⟨{ s with cur := { s.cur with subscriptions := subs } },
      { sub with status := st }, ?_⟩
    unfold update_subscription_status
    rw [hf]

lemma sweep_fold_session (notifyOk : Nat → Bool) (dueL : List Subscription) :
    ∀ (s : Session) (evs : List SweepEv),
      ((dueL.foldl (sweepStep notifyOk) (s, evs)).1).cur.subscriptions =
        dueL.foldl (fun L sub => L.map (flipExpired sub.id)) s.cur.subscriptions ∧
      ((dueL.foldl (sweepStep notifyOk) (s, evs)).1).cur.users = s.cur.users ∧
      ((dueL.foldl (sweepStep notifyOk) (s, evs)).1).cur.chats = s.cur.chats ∧
      ((dueL.foldl (sweepStep notifyOk) (s, evs)).1).db = s.db := by
  induction dueL with
  | nil => intro s evs; exact ⟨rfl, rfl, rfl, rfl⟩
  | cons sub rest ih =>
    intro s evs
    obtain ⟨h1, h2, h3, h4⟩ := update_status_components s sub.id "expired"
    rcases hu : update_subscription_status s sub.id "expired" with ⟨s1, o⟩
    rw [hu] at h1 h2 h3 h4
    have h1f : s1.cur.subscriptions = s.cur.subscriptions.map (flipExpired sub.id) := h1
    have hstep : ∃ evs1, (sweepStep notifyOk (s, evs) sub) = (s1, evs1) := by
      cases o with
      | some x =>
        exact ⟨evs ++ [.flip sub.id, .notifyExpiry sub.id (notifyOk sub.id)], by
          simp [sweepStep, hu]⟩
      | none => exact ⟨evs, by simp [sweepStep, hu]⟩
    obtain ⟨evs1, hstep⟩ := hstep
    simp only [List.foldl_cons, hstep]
    obtain ⟨g1, g2, g3, g4⟩ := ih s1 evs1
    exact ⟨by rw [g1, h1f], by rw [g2, h2], by rw [g3, h3], by rw [g4, h4]⟩

lemma sweep_fold_evs (notifyOk : Nat → Bool) (dueL : List Subscription) :
    ∀ (s : Session) (evs : List SweepEv),
      (∀ sub ∈ dueL, ∃ t ∈ s.cur.subscriptions, t.id = sub.id) →
      (dueL.foldl (sweepStep notifyOk) (s, evs)).2 =
        evs ++ dueL.flatMap
          (fun sub => [.flip sub.id, .notifyExpiry sub.id (notifyOk sub.id)]) := by
  induction dueL with
  | nil => intro s evs _; simp
  | cons sub rest ih =>
    intro s evs h
    obtain ⟨s1, x, hu⟩ :=
      update_status_found s sub.id "expired" (h sub (List.mem_cons_self sub rest))
    have hstep : sweepStep notifyOk (s, evs) sub =
        (s1, evs ++ [.flip sub.id, .notifyExpiry sub.id (notifyOk sub.id)]) := by
      simp [sweepStep, hu]
    have hcomp := (update_status_components s sub.id "expired").1
    rw [hu] at hcomp
    simp only [List.foldl_cons, hstep]
    rw [ih s1 _ ?_]
    · simp
    · intro sub2 hsub2
      obtain ⟨t, ht, hid⟩ := h sub2 (List.mem_cons_of_mem sub hsub2)
      refine ⟨(fun t => if t.id == sub.id then { t with status := "expired" } else t) t,
        ?_, ?_⟩
      · rw [hcomp]
        exact List.mem_map_of_mem _ ht
      · show (if t.id == sub.id then { t with status := "expired" } else t).id = sub2.id
        split <;> simpa using hid

lemma foldl_flip_by_id (dueL : List Subscription) : ∀ L : List Subscription,
    dueL.foldl (fun L sub => L.map (flipExpired sub.id)) L =
      L.map (applyFlips (dueL.map (·.id))) := by
  induction dueL with
  | nil => intro L; exact (List.map_id' L).symm
  | cons sub rest ih =>
    intro L
    simp only [List.foldl_cons, List.map_cons]
    rw [ih (L.map (flipExpired sub.id)), List.map_map]
    rfl

lemma sweep_store (db : Store) (now : Int) (notifyOk : Nat → Bool) :
    (process_expired_subscriptions db now notifyOk).1 =
      { users := db.users, chats := db.chats,
        subscriptions := db.subscriptions.map
          (applyFlips ((get_expired_subscriptions (openSession db) now).map (·.id))) } := by
  obtain ⟨h1, h2, h3, _⟩ := sweep_fold_session notifyOk
    (get_expired_subscriptions (openSession db) now) (openSession db) []
  have heta : (process_expired_subscriptions db now notifyOk).1 =
      { users := ((get_expired_subscriptions (openSession db) now).foldl
          (sweepStep notifyOk) (openSession db, [])).1.cur.users,
        chats := ((get_expired_subscriptions (openSession db) now).foldl
          (sweepStep notifyOk) (openSession db, [])).1.cur.chats,
        subscriptions := ((get_expired_subscriptions (openSession db) now).foldl
          (sweepStep notifyOk) (openSession db, [])).1.cur.subscriptions } := rfl
  rw [heta, h1, h2, h3, foldl_flip_by_id]
  rfl

lemma get_expired_eq (db : Store) (now : Int) :
    get_expired_subscriptions (openSession db) now =
      db.subscriptions.filter (expiredPred now) := rfl

lemma due_ids_iff (db : Store) (now : Int)
    (hids : (db.subscriptions.map (·.id)).Nodup) :
    ∀ s ∈ db.subscriptions,
      (s.id ∈ (get_expired_subscriptions (openSession db) now).map (·.id) ↔
        (s.status = "active" ∧ s.end_date ≤ now)) := by
  intro s hs
  constructor
  · intro hmem
    obtain ⟨t, htdue, htid⟩ := List.mem_map.mp hmem
    rw [get_expired_eq] at htdue
    have ht := List.mem_filter.mp htdue
    have hts : t = s := List.inj_on_of_nodup_map hids ht.1 hs htid
    have := ht.2
    rw [hts] at this
    simpa [expiredPred] using this
  · intro hp
    have hfil : s ∈ db.subscriptions.filter (expiredPred now) :=
      List.mem_filter.mpr ⟨hs, by simp [expiredPred, hp.1, hp.2]⟩
    rw [← get_expired_eq] at hfil
    exact List.mem_map_of_mem _ hfil

lemma sweep_findSub (db : Store) (now : Int) (notifyOk : Nat → Bool)
    (hids : (db.subscriptions.map (·.id)).Nodup) (i : Nat) (s : Subscription)
    (hfind : findSub db i = some s) :
    findSub (process_expired_subscriptions db now notifyOk).1 i =
      some (if s.status = "active" ∧ s.end_date ≤ now
            then { s with status := "expired" } else s) := by
  have hstore := sweep_store db now notifyOk
  have hsmem : s ∈ db.subscriptions := List.mem_of_find?_eq_some hfind
  rw [hstore]
  show (db.subscriptions.map
    (applyFlips ((get_expired_subscriptions (openSession db) now).map (·.id)))).find?
      (fun t => t.id == i) = _
  rw [List.find?_map]
  have hcomp : ((fun t : Subscription => t.id == i) ∘
      applyFlips ((get_expired_subscriptions (openSession db) now).map (·.id))) =
      (fun t : Subscription => t.id == i) := by
    funext t
    simp [Function.comp, applyFlips_id]
  rw [hcomp]
  have hfind2 : db.subscriptions.find? (fun t => t.id == i) = some s := hfind
  rw [hfind2]
  simp only [Option.map_some']
  rw [applyFlips_spec]
  by_cases hp : s.status = "active" ∧ s.end_date ≤ now
  · rw [if_pos ((due_ids_iff db now hids s hsmem).mpr hp), if_pos hp]
  · rw [if_neg (fun hmem => hp ((due_ids_iff db now hids s hsmem).mp hmem)),
      if_neg hp]

/-- C3: one run of the expiry sweep turns exactly the subscriptions that
were `active` with `end_date <= now` into `expired` and touches nothing
else; an immediately following second run on the resulting store finds
zero due records and leaves the store unchanged.  The primary-key
hypothesis (`id` values are distinct) reflects the `primary_key=True`
column of `models.py`. -/
theorem c3_expiry_sweep_correct (db : Store) (now : Int) (notifyOk : Nat → Bool)
    (hids : (db.subscriptions.map (·.id)).Nodup) :
    (∀ i s, findSub db i = some s →
      findSub (process_expired_subscriptions db now notifyOk).1 i =
        some (if s.status = "active" ∧ s.end_date ≤ now
              then { s with status := "expired" } else s)) ∧
    get_expired_subscriptions
      (openSession (process_expired_subscriptions db now notifyOk).1) now = [] ∧
    (process_expired_subscriptions
      (process_expired_subscriptions db now notifyOk).1 now notifyOk).1 =
      (process_expired_subscriptions db now notifyOk).1 := by
  have hstore := sweep_store db now notifyOk
  have hpart2 : get_expired_subscriptions
      (openSession (process_expired_subscriptions db now notifyOk).1) now = [] := by
    rw [hstore, get_expired_eq]
    apply List.filter_eq_nil_iff.mpr
    intro t2 ht2
    obtain ⟨t, htmem, rfl⟩ := List.mem_map.mp ht2
    rw [applyFlips_spec]
    split
    · simp [expiredPred]
    · rename_i hnotmem
      intro hpt
      apply hnotmem
      have hfil : t ∈ db.subscriptions.filter (expiredPred now) :=
        List.mem_filter.mpr ⟨htmem, hpt⟩
      rw [← get_expired_eq] at hfil
      exact List.mem_map_of_mem _ hfil
  refine ⟨fun i s hfind => sweep_findSub db now notifyOk hids i s hfind, hpart2, ?_⟩
  · rw [hstore] at hpart2 ⊢
    rw [sweep_store, hpart2]
    have hid2 : ∀ L : List Subscription,
        L.map (applyFlips (([] : List Subscription).map (fun t => t.id))) = L := by
      intro L
      exact List.map_id' L
    show ({ users := _, chats := _, subscriptions := _ } : Store) = _
    rw [hid2]

/-- Witness for C3 at a concrete input: on the one-subscription store whose
active subscription ended at time 5, a second sweep run at time 100 right
after the first finds no due records. -/
theorem c3_expiry_sweep_correct_witness :
    get_expired_subscriptions
      (openSession (process_expired_subscriptions exStoreActive 100
        (fun _ => true)).1) 100 = [] :=
  (c3_expiry_sweep_correct exStoreActive 100 (fun _ => true) (by decide)).2.1

/-- C4 as amended: in every sweep run the event trace is, in order, one
`flip` immediately followed by its `notifyExpiry` for each due record —
all inside the single transaction — and then exactly one final commit; so
the batch is committed once AFTER the notifications, not before them.  A
notification failure for one record (the `ok` flag) neither prevents the
processing or notification of the other records nor changes the committed
store: the resulting durable store is independent of the notification
outcomes. -/
theorem c4_amended_sweep_events (db : Store) (now : Int) (notifyOk : Nat → Bool) :
    (process_expired_subscriptions db now notifyOk).2 =
      (get_expired_subscriptions (openSession db) now).flatMap
        (fun sub => [.flip sub.id, .notifyExpiry sub.id (notifyOk sub.id)]) ++
        [.commitEv] ∧
    (process_expired_subscriptions db now notifyOk).1 =
      (process_expired_subscriptions db now (fun _ => true)).1 := by
  constructor
  · have hsubset : ∀ sub ∈ get_expired_subscriptions (openSession db) now,
        ∃ t ∈ (openSession db).cur.subscriptions, t.id = sub.id := by
      intro sub hsub
      rw [get_expired_eq] at hsub
      exact ⟨sub, (List.mem_filter.mp hsub).1, rfl⟩
    have hevs := sweep_fold_evs notifyOk (get_expired_subscriptions (openSession db) now)
      (openSession db) [] hsubset
    show ((get_expired_subscriptions (openSession db) now).foldl
      (sweepStep notifyOk) (openSession db, [])).2 ++ [SweepEv.commitEv] = _
    rw [hevs]
    simp
  · rw [sweep_store, sweep_store]

/-- C8 counterexample: the claim says two concurrent lookup-or-create
calls with the same external id both return an equivalent record.  In the
race where both SELECTs precede both INSERTs on an empty store, the unique
constraint keeps the store at exactly one row for platform id 555, but the
second call raises `IntegrityError` (re-raised by `db_utils.py` lines
30-33) instead of returning the existing row. -/
theorem c8_concurrent_second_call_errors :
    (get_or_create_race emptyStore 555).2.2 = .error .integrityError ∧
    ((get_or_create_race emptyStore 555).1.users.filter
      (fun u => u.telegram_id == 555)).length = 1 :=
  ⟨rfl, by decide⟩

lemma checkStore_delete_referenced (db : Store) (chat_db_id : Nat)
    (sub : Subscription) (hsub : sub ∈ db.subscriptions)
    (href : sub.chat_id = chat_db_id) :
    checkStore { db with chats := db.chats.filter (fun c => !(c.id == chat_db_id)) }
      = false := by
  have hany : (db.chats.filter (fun c => !(c.id == chat_db_id))).any
      (fun c => c.id == sub.chat_id) = false := by
    apply List.any_eq_false.mpr
    intro c hc
    have h2 := (List.mem_filter.mp hc).2
    simp only [Bool.not_eq_true', beq_eq_false_iff_ne, ne_eq] at h2
    simp only [beq_iff_eq, href]
    exact h2
  have hall : (db.subscriptions.all (fun s =>
      db.users.any (fun u => u.id == s.user_id) &&
      (db.chats.filter (fun c => !(c.id == chat_db_id))).any
        (fun c => c.id == s.chat_id))) = false := by
    apply List.all_eq_false.mpr
    exact ⟨sub, hsub, by simp [hany]⟩
  simp only [checkStore]
  rw [hall]
  simp

lemma nodupKeys_append_singleton {β : Type} [BEq β] [LawfulBEq β] (l : List β) (b : β) :
    nodupKeys (l ++ [b]) = true ↔ nodupKeys l = true ∧ b ∉ l := by
  rw [nodupKeys_iff, nodupKeys_iff]
  simp [List.nodup_append]

lemma nodupPids_append_some (l : List (Option String)) (p : String) :
    nodupPids (l ++ [some p]) = true ↔ nodupPids l = true ∧ some p ∉ l := by
  induction l with
  | nil => simp [nodupPids]
  | cons a t ih =>
    cases a with
    | none =>
      simp only [List.cons_append, nodupPids, List.mem_cons, List.append_eq]
      rw [ih]
      simp
    | some q =>
      simp only [List.cons_append, nodupPids, Bool.and_eq_true, List.elem_eq_mem,
        List.mem_append, List.mem_cons, List.mem_singleton, List.append_eq,
        Bool.not_eq_true', decide_eq_false_iff_not]
      rw [ih]
      constructor
      · rintro ⟨hq, ht, hp⟩
        exact ⟨⟨fun hmem => hq (Or.inl hmem), ht⟩, fun hc => by
          rcases hc with hpq | hpt
          · exact hq (Or.inr (by simp [hpq]))
          · exact hp hpt⟩
      · rintro ⟨⟨hq, ht⟩, hp⟩
        refine ⟨?_, ht, fun hpt => hp (Or.inr hpt)⟩
        rintro (hmem | hqp)
        · exact hq hmem
        · exact hp (Or.inl (by simpa [eq_comm] using hqp))

lemma map_replace_proj {γ : Type} (l : List User) (u u1 : User) (f : User → γ)
    (hfu : f u1 = f u) (hinj : ∀ w ∈ l, w.id = u.id → f w = f u) :
    (l.map (fun w => if w.id == u.id then u1 else w)).map f = l.map f := by
  rw [List.map_map]
  apply List.map_congr_left
  intro w hw
  simp only [Function.comp]
  split
  · rename_i h
    rw [hfu, ← hinj w hw (by simpa using h)]
  · rfl

lemma any_comp {α β : Type} (l : List α) (f : α → β) (p : β → Bool) :
    (l.map f).any p = l.any (fun x => p (f x)) := by
  induction l with
  | nil => rfl
  | cons a t ih => simp [List.any_cons, ih]

lemma any_key_of_map_eq (l2 l : List User)
    (h : l2.map (fun u => u.id) = l.map (fun u => u.id)) (k : Nat) :
    l2.any (fun u => u.id == k) = l.any (fun u => u.id == k) := by
  have h2 := congrArg (fun L => L.any (fun i => i == k)) h
  simp only [any_comp] at h2
  exact h2

lemma checkStore_addUser (db : Store) (tid : Int) (hcs : checkStore db = true)
    (hnotmem : tid ∉ db.users.map (fun u => u.telegram_id)) :
    checkStore { db with users := db.users ++ [freshUser db tid] } = true := by
  simp only [checkStore, Bool.and_eq_true] at hcs
  obtain ⟨⟨⟨⟨⟨⟨h1, h2⟩, h3⟩, h4⟩, h5⟩, h6⟩, h7⟩ := hcs
  simp only [checkStore, Bool.and_eq_true]
  refine ⟨⟨⟨⟨⟨⟨?_, h2⟩, h3⟩, ?_⟩, h5⟩, h6⟩, ?_⟩
  · rw [List.map_append]
    exact (nodupKeys_append_singleton _ _).mpr ⟨h1, by
      simpa [freshUser, nextUserId] using nextId_not_mem (db.users.map (fun u => u.id))⟩
  · rw [List.map_append]
    exact (nodupKeys_append_singleton _ _).mpr ⟨h4, by simpa [freshUser] using hnotmem⟩
  · rw [List.all_eq_true] at h7 ⊢
    intro s hs
    have := h7 s hs
    simp only [Bool.and_eq_true] at this ⊢
    refine ⟨?_, this.2⟩
    rw [List.any_append]
    simp [this.1]

lemma get_user_ok (db : Store) (tid : Int) (hcs : checkStore db = true) :
    ∃ s1 u1, get_user_by_telegram_id (openSession db) tid = .ok (s1, u1) ∧
      u1.telegram_id = tid ∧ u1 ∈ s1.cur.users ∧
      checkStore s1.cur = true ∧ s1.db = s1.cur ∧
      s1.cur.chats = db.chats ∧ s1.cur.subscriptions = db.subscriptions ∧
      (s1.cur.users = db.users ∨ s1.cur.users = db.users ++ [freshUser db tid]) := by
  rcases hf : db.users.find? (fun u => u.telegram_id == tid) with _ | u
  · have hnotmem : tid ∉ db.users.map (fun u => u.telegram_id) := by
      intro hmem
      obtain ⟨w, hw, hwt⟩ := List.mem_map.mp hmem
      have := List.find?_eq_none.mp hf w hw
      simp [hwt] at this
    have hcheck := checkStore_addUser db tid hcs hnotmem
    have hcommit : commitE { db := db, cur :=
        { db with users := db.users ++ [freshUser db tid] } } =
        .ok { db := { db with users := db.users ++ [freshUser db tid] },
              cur := { db with users := db.users ++ [freshUser db tid] } } := by
      unfold commitE
      rw [if_pos hcheck]
    refine ⟨{ db := { db with users := db.users ++ [freshUser db tid] },
              cur := { db with users := db.users ++ [freshUser db tid] } },
      freshUser db tid, ?_, rfl, ?_, hcheck, rfl, rfl, rfl, Or.inr rfl⟩
    · simp only [get_user_by_telegram_id, openSession, hf, hcommit]
    · exact List.mem_append_right _ (List.mem_singleton.mpr rfl)
  · have ht : u.telegram_id = tid := by simpa using List.find?_some hf
    refine ⟨openSession db, u, ?_, ht, List.mem_of_find?_eq_some hf, hcs, rfl, rfl,
      rfl, Or.inl rfl⟩
    simp only [get_user_by_telegram_id, openSession, hf]

lemma commitE_ok_of_check (s : Session) (h : checkStore s.cur = true) :
    commitE s = .ok { db := s.cur, cur := s.cur } := by
  unfold commitE
  rw [if_pos h]

lemma checkStore_select_staged (base : Store) (hcs : checkStore base = true)
    (u1 u1T : User) (hmem : u1 ∈ base.users)
    (hid : u1T.id = u1.id) (htid : u1T.telegram_id = u1.telegram_id)
    (c : Chat) (hc : c ∈ base.chats) (sd ed : Int) (st : String) (ref : String)
    (hfresh : some ref ∉ base.subscriptions.map (fun s => s.payment_id))
    (details : Option PaymentDetails) :
    checkStore
      { users := base.users.map (fun w => if w.id == u1.id then u1T else w),
        chats := base.chats,
        subscriptions := base.subscriptions ++
          [{ id := nextSubId base, user_id := u1.id, chat_id := c.id,
             start_date := sd, end_date := ed, status := st,
             payment_id := some ref, payment_details := details }] } = true := by
  simp only [checkStore, Bool.and_eq_true] at hcs
  obtain ⟨⟨⟨⟨⟨⟨h1, h2⟩, h3⟩, h4⟩, h5⟩, h6⟩, h7⟩ := hcs
  have hidproj : (base.users.map (fun w => if w.id == u1.id then u1T else w)).map
      (fun u => u.id) = base.users.map (fun u => u.id) :=
    map_replace_proj _ u1 u1T _ hid (fun w _ hw => by rw [hw])
  have hnodupids : (base.users.map (fun u => u.id)).Nodup := (nodupKeys_iff _).mp h1
  have htidproj : (base.users.map (fun w => if w.id == u1.id then u1T else w)).map
      (fun u => u.telegram_id) = base.users.map (fun u => u.telegram_id) := by
    apply map_replace_proj _ u1 u1T _ htid
    intro w hwmem hwid
    have hw : w = u1 := List.inj_on_of_nodup_map hnodupids hwmem hmem hwid
    rw [hw]
  simp only [checkStore, Bool.and_eq_true]
  refine ⟨⟨⟨⟨⟨⟨?_, h2⟩, ?_⟩, ?_⟩, h5⟩, ?_⟩, ?_⟩
  · rw [hidproj]
    exact h1
  · rw [List.map_append]
    apply (nodupKeys_append_singleton _ _).mpr
    refine ⟨h3, ?_⟩
    simpa [nextSubId] using nextId_not_mem (base.subscriptions.map (fun s => s.id))
  · rw [htidproj]
    exact h4
  · rw [List.map_append]
    exact (nodupPids_append_some _ _).mpr ⟨h6, hfresh⟩
  · rw [List.all_append]
    simp only [Bool.and_eq_true]
    constructor
    · rw [List.all_eq_true] at h7 ⊢
      intro s hs
      have h := h7 s hs
      simp only [Bool.and_eq_true] at h ⊢
      exact ⟨by rw [any_key_of_map_eq _ _ hidproj]; exact h.1, h.2⟩
    · simp only [List.all_cons, List.all_nil, Bool.and_true, Bool.and_eq_true,
        List.any_eq_true]
      constructor
      · exact ⟨(fun w => if w.id == u1.id then u1T else w) u1,
          List.mem_map_of_mem _ hmem, by simp [hid]⟩
      · exact ⟨c, hc, by simp⟩

/-- The success path of `select_chat_callback`: when the chat exists, the
store satisfies its constraints and the generated payment reference does
not collide, the handler creates and commits exactly one new
`pending_payment` subscription carrying the reference and the chat's
payment destination; the chat and subscription relations are otherwise
untouched (the user relation may gain/update the caller's row). -/
lemma select_chat_ok (db : Store) (caller : CallerInfo) (chat_id : Nat)
    (now : Int) (uuidHex : String) (c : Chat)
    (hchat : get_chat_by_id (openSession db) chat_id = some c)
    (hcs : checkStore db = true)
    (hfresh : some (mkPaymentRef uuidHex) ∉
      db.subscriptions.map (fun s => s.payment_id)) :
    ∃ us sub, select_chat_callback db caller chat_id now uuidHex =
      ({ users := us, chats := db.chats,
         subscriptions := db.subscriptions ++ [sub] }, .created sub) ∧
      sub.status = "pending_payment" ∧ sub.chat_id = c.id ∧
      sub.start_date = now ∧ sub.end_date = now + 30 * 86400 ∧
      sub.payment_id = some (mkPaymentRef uuidHex) ∧
      sub.payment_details = some { generated_wallet := c.crypto_wallet_address,
                                   network := c.crypto_network,
                                   reference := mkPaymentRef uuidHex } := by
  obtain ⟨s1, u1, hEq, htid1, hmem, hchk, hdbcur, hch, hsubs, hus⟩ :=
    get_user_ok db caller.telegram_id hcs
  have hc : c ∈ s1.cur.chats := by
    rw [hch]
    exact List.mem_of_find?_eq_some hchat
  have hfresh1 : some (mkPaymentRef uuidHex) ∉
      s1.cur.subscriptions.map (fun s => s.payment_id) := by
    rw [hsubs]
    exact hfresh
  set u1T : User :=
    { u1 with username := touchName u1.username caller.username,
              first_name := touchName u1.first_name caller.first_name,
              last_name := touchName u1.last_name caller.last_name } with hu1T
  set usersT := s1.cur.users.map (fun w => if w.id == u1.id then u1T else w)
    with husersT
  set s2 : Session := { s1 with cur := { s1.cur with users := usersT } } with hs2
  set r := create_subscription s2 u1.id c.id 30 now "pending_payment"
    (some (mkPaymentRef uuidHex))
    (some { generated_wallet := c.crypto_wallet_address,
            network := c.crypto_network,
            reference := mkPaymentRef uuidHex }) with hr
  have hstaged : checkStore r.1.cur = true :=
    checkStore_select_staged s1.cur hchk u1 u1T hmem rfl rfl c hc now
      (now + 30 * 86400) "pending_payment" (mkPaymentRef uuidHex) hfresh1
      (some { generated_wallet := c.crypto_wallet_address,
              network := c.crypto_network, reference := mkPaymentRef uuidHex })
  have hok : commitE r.1 = .ok { db := r.1.cur, cur := r.1.cur } :=
    commitE_ok_of_check r.1 hstaged
  have hsel : select_chat_callback db caller chat_id now uuidHex =
      (match commitE r.1 with
       | .ok s4 => (s4.db, .created r.2)
       | .error _ => (r.1.db, .dbError)) := by
    simp only [select_chat_callback, hchat, hEq]
  have hstoreEq : r.1.cur = { users := s2.cur.users, chats := db.chats,
                              subscriptions := db.subscriptions ++ [r.2] } := by
    show ({ users := s2.cur.users, chats := s2.cur.chats,
            subscriptions := s2.cur.subscriptions ++ [r.2] } : Store) = _
    rw [show s2.cur.chats = db.chats from hch,
      show s2.cur.subscriptions = db.subscriptions from hsubs]
  refine ⟨s2.cur.users, r.2, ?_, rfl, rfl, rfl, rfl, rfl, rfl⟩
  rw [hsel, hok]
  show (r.1.cur, SelectOutcome.created r.2) = _
  rw [hstoreEq]

/-- C7 as amended: a `pending_payment` subscription is created exactly when
the referenced chat EXISTS — the chat's active flag is not re-checked by
`select_chat_callback`, so an existing but inactive chat still yields a
subscription; when the chat does not exist, the handler reports not-found
and the store is unchanged. -/
theorem c7_amended_pending_requires_existing_chat (db : Store)
    (caller : CallerInfo) (chat_id : Nat) (now : Int) (uuidHex : String) :
    (get_chat_by_id (openSession db) chat_id = none →
      select_chat_callback db caller chat_id now uuidHex = (db, .chatNotFound)) ∧
    (∀ c, get_chat_by_id (openSession db) chat_id = some c →
      checkStore db = true →
      some (mkPaymentRef uuidHex) ∉ db.subscriptions.map (fun s => s.payment_id) →
      ∃ us sub, select_chat_callback db caller chat_id now uuidHex =
        ({ users := us, chats := db.chats,
           subscriptions := db.subscriptions ++ [sub] }, .created sub) ∧
        sub.status = "pending_payment" ∧ sub.chat_id = c.id) := by
  constructor
  · intro hnone
    simp only [select_chat_callback, hnone]
  · intro c hchat hcs hfresh
    obtain ⟨us, sub, hEq, hst, hcid, _, _, _, _⟩ :=
      select_chat_ok db caller chat_id now uuidHex c hchat hcs hfresh
    exact ⟨us, sub, hEq, hst, hcid⟩

/-- Witness for the amended C7: selecting the existing-but-inactive chat 1
on the concrete store creates a committed `pending_payment` subscription
referencing it. -/
theorem c7_amended_pending_requires_existing_chat_witness :
    ∃ us sub, select_chat_callback exStoreNoSubs
      { telegram_id := 555, username := none, first_name := none,
        last_name := none } 1 1000 exUuidHex =
      ({ users := us, chats := exStoreNoSubs.chats,
         subscriptions := exStoreNoSubs.subscriptions ++ [sub] }, .created sub) ∧
      sub.status = "pending_payment" ∧ sub.chat_id = exInactiveChat.id :=
  (c7_amended_pending_requires_existing_chat exStoreNoSubs
    { telegram_id := 555, username := none, first_name := none,
      last_name := none } 1 1000 exUuidHex).2 exInactiveChat
    (by decide) (by decide) (by decide)

lemma toUpper_mem_upperHexChars (ch : Char) (h : ch ∈ lowerHexChars) :
    ch.toUpper ∈ upperHexChars := by
  simp only [lowerHexChars] at h
  fin_cases h <;> decide

lemma mkPaymentRef_form (uuidHex : String) (hlen : uuidHex.toList.length = 32)
    (hhex : ∀ ch ∈ uuidHex.toList, ch ∈ lowerHexChars) :
    ∃ t : List Char, mkPaymentRef uuidHex = "PAYREF-" ++ String.mk t ∧
      t.length = 10 ∧ ∀ ch ∈ t, ch ∈ upperHexChars := by
  refine ⟨(uuidHex.toList.take 10).map Char.toUpper, rfl, ?_, ?_⟩
  · rw [List.length_map, List.length_take, hlen]
    decide
  · intro ch hch
    obtain ⟨d, hd, rfl⟩ := List.mem_map.mp hch
    exact toUpper_mem_upperHexChars d (hhex d (List.take_subset _ _ hd))

/-- C10: every subscription created through the chat-selection flow is
stored with a `payment_id` of the form `PAYREF-` followed by exactly 10
uppercase hexadecimal characters (the first 10 characters of the
32-character lowercase `uuid4().hex`, upper-cased), and with
`payment_details` recording the selected chat's wallet address, its
network label and that same reference string. -/
theorem c10_payment_reference_shape (db : Store) (caller : CallerInfo)
    (chat_id : Nat) (now : Int) (uuidHex : String) (c : Chat)
    (hchat : get_chat_by_id (openSession db) chat_id = some c)
    (hcs : checkStore db = true)
    (hfresh : some (mkPaymentRef uuidHex) ∉
      db.subscriptions.map (fun s => s.payment_id))
    (hlen : uuidHex.toList.length = 32)
    (hhex : ∀ ch ∈ uuidHex.toList, ch ∈ lowerHexChars) :
    ∃ us sub, select_chat_callback db caller chat_id now uuidHex =
      ({ users := us, chats := db.chats,
         subscriptions := db.subscriptions ++ [sub] }, .created sub) ∧
      sub.payment_id = some (mkPaymentRef uuidHex) ∧
      (∃ t : List Char, mkPaymentRef uuidHex = "PAYREF-" ++ String.mk t ∧
        t.length = 10 ∧ ∀ ch ∈ t, ch ∈ upperHexChars) ∧
      sub.payment_details = some { generated_wallet := c.crypto_wallet_address,
                                   network := c.crypto_network,
                                   reference := mkPaymentRef uuidHex } := by
  obtain ⟨us, sub, hEq, _, _, _, _, hpid, hpd⟩ :=
    select_chat_ok db caller chat_id now uuidHex c hchat hcs hfresh
  exact ⟨us, sub, hEq, hpid, mkPaymentRef_form uuidHex hlen hhex, hpd⟩

/-- Witness for C10 at a concrete input: the subscription created for chat
1 carries the reference built from the concrete uuid hex value, and its
payment details carry the chat's wallet and network. -/
theorem c10_payment_reference_shape_witness :
    ∃ us sub, select_chat_callback exStoreNoSubs
      { telegram_id := 555, username := none, first_name := none,
        last_name := none } 1 1000 exUuidHex =
      ({ users := us, chats := exStoreNoSubs.chats,
         subscriptions := exStoreNoSubs.subscriptions ++ [sub] }, .created sub) ∧
      sub.payment_id = some (mkPaymentRef exUuidHex) ∧
      (∃ t : List Char, mkPaymentRef exUuidHex = "PAYREF-" ++ String.mk t ∧
        t.length = 10 ∧ ∀ ch ∈ t, ch ∈ upperHexChars) ∧
      sub.payment_details = some
        { generated_wallet := exInactiveChat.crypto_wallet_address,
          network := exInactiveChat.crypto_network,
          reference := mkPaymentRef exUuidHex } :=
  c10_payment_reference_shape exStoreNoSubs
    { telegram_id := 555, username := none, first_name := none,
      last_name := none } 1 1000 exUuidHex exInactiveChat
    (by decide) (by decide) (by decide) (by decide) (by decide)

lemma find?_key_of_nodup (l : List User)
    (hnodup : (l.map (fun u => u.telegram_id)).Nodup) (u : User) (hu : u ∈ l)
    (tid : Int) (ht : u.telegram_id = tid) :
    l.find? (fun v => v.telegram_id == tid) = some u := by
  induction l with
  | nil => cases hu
  | cons a t ih =>
    rw [List.map_cons, List.nodup_cons] at hnodup
    rcases List.mem_cons.mp hu with rfl | hut
    · exact List.find?_cons_of_pos _ (by simp [ht])
    · have ha : ¬ (a.telegram_id == tid) = true := by
        simp only [beq_iff_eq]
        intro hat
        exact hnodup.1 (List.mem_map.mpr ⟨u, hut, by rw [ht, hat]⟩)
      rw [List.find?_cons_of_neg _ (by simpa using ha)]
      exact ih hnodup.2 hut

lemma filter_key_singleton (l : List User)
    (hnodup : (l.map (fun u => u.telegram_id)).Nodup) (u : User) (hu : u ∈ l)
    (tid : Int) (ht : u.telegram_id = tid) :
    (l.filter (fun v => v.telegram_id == tid)).length = 1 := by
  induction l with
  | nil => cases hu
  | cons a t ih =>
    rw [List.map_cons, List.nodup_cons] at hnodup
    rcases List.mem_cons.mp hu with rfl | hut
    · rw [List.filter_cons, if_pos (by simp [ht])]
      have hnil : t.filter (fun v => v.telegram_id == tid) = [] := by
        apply List.filter_eq_nil_iff.mpr
        intro v hv hvt
        exact hnodup.1 (List.mem_map.mpr ⟨v, hv,
          by rw [show v.telegram_id = tid from by simpa using hvt, ht]⟩)
      rw [hnil]
      rfl
    · have ha : (a.telegram_id == tid) = false := by
        simp only [beq_eq_false_iff_ne, ne_eq]
        intro hat
        exact hnodup.1 (List.mem_map.mpr ⟨u, hut, by rw [ht, hat]⟩)
      rw [List.filter_cons, ha]
      simp only [Bool.false_eq_true, if_false]
      exact ih hnodup.2 hut

/-- C8 as amended: sequential lookup-or-create is idempotent — on a valid
store the first call returns a row with the requested platform id (looked
up, or inserted and committed), an immediately following second call on
the same session returns THE SAME row with no further store change, and
exactly one stored row carries that platform id.  Under the concurrent
race in which both SELECTs precede both INSERTs (`get_or_create_race`),
the unique constraint on `users.telegram_id` still leaves exactly one row,
the first caller gets the new row, but the second caller receives an
`IntegrityError` instead of the existing record. -/
theorem c8_amended_lookup_or_create (db : Store) (tid : Int)
    (hcs : checkStore db = true) :
    (∃ s1 u1, get_user_by_telegram_id (openSession db) tid = .ok (s1, u1) ∧
      u1.telegram_id = tid ∧
      get_user_by_telegram_id s1 tid = .ok (s1, u1) ∧
      (s1.cur.users.filter (fun v => v.telegram_id == tid)).length = 1 ∧
      s1.db = s1.cur) ∧
    (db.users.all (fun u => !(u.telegram_id == tid)) = true →
      get_or_create_race db tid =
        ({ db with users := db.users ++ [freshUser db tid] },
         .ok (freshUser db tid), .error .integrityError) ∧
      (((db.users ++ [freshUser db tid]).filter
        (fun v => v.telegram_id == tid)).length = 1)) := by
  constructor
  · obtain ⟨s1, u1, hEq, htid1, hmem, hchk, hdbcur, _, _, _⟩ :=
      get_user_ok db tid hcs
    have hnodup : (s1.cur.users.map (fun u => u.telegram_id)).Nodup := by
      simp only [checkStore, Bool.and_eq_true] at hchk
      exact (nodupKeys_iff _).mp hchk.1.1.1.2
    have hfind := find?_key_of_nodup s1.cur.users hnodup u1 hmem tid htid1
    refine ⟨s1, u1, hEq, htid1, ?_, filter_key_singleton s1.cur.users hnodup u1
      hmem tid htid1, hdbcur⟩
    simp only [get_user_by_telegram_id, hfind]
  · intro hall
    have hnone : ∀ u ∈ db.users, ¬ (u.telegram_id == tid) = true := by
      intro u hu
      simpa using List.all_eq_true.mp hall u hu
    have hf : db.users.find? (fun u => u.telegram_id == tid) = none :=
      List.find?_eq_none.mpr hnone
    have hany : db.users.any (fun u => u.telegram_id == tid) = false :=
      List.any_eq_false.mpr hnone
    have hins1 : insertUserCommit db (freshUser db tid) =
        .ok { db with users := db.users ++ [freshUser db tid] } := by
      unfold insertUserCommit
      rw [if_neg]
      simp [freshUser, hany]
    have hins2 : insertUserCommit { db with users := db.users ++ [freshUser db tid] }
        (freshUser { db with users := db.users ++ [freshUser db tid] } tid) =
        .error .integrityError := by
      unfold insertUserCommit
      rw [if_pos]
      show ((db.users ++ [freshUser db tid]).any _) = true
      rw [List.any_append]
      simp [freshUser]
    constructor
    · simp only [get_or_create_race, hf, hins1, hins2]
    · rw [List.filter_append]
      have hnil : db.users.filter (fun v => v.telegram_id == tid) = [] :=
        List.filter_eq_nil_iff.mpr hnone
      rw [hnil]
      simp [freshUser]

/-- Witness for the amended C8 at a concrete input: the race on the empty
store for platform id 555 leaves one committed row, hands caller A the new
row and caller B the integrity error. -/
theorem c8_amended_lookup_or_create_witness :
    get_or_create_race emptyStore 555 =
      ({ emptyStore with users := emptyStore.users ++ [freshUser emptyStore 555] },
       .ok (freshUser emptyStore 555), .error .integrityError) :=
  ((c8_amended_lookup_or_create emptyStore 555 (by decide)).2 (by decide)).1

/-- C9: deleting a chat that still has a subscription referencing it fails
with the referential-integrity error (the staged deletion violates the
non-nullable foreign key `subscriptions.chat_id` at commit, surfacing
SQLAlchemy's `IntegrityError` in the handler's `SQLAlchemyError` branch),
the outcome is distinguishable from both not-found and success, and the
store — in particular the chat row — is unchanged. -/
theorem c9_delete_referenced_chat_blocked (db : Store) (chat_db_id : Nat)
    (c : Chat) (sub : Subscription)
    (hchat : get_chat_by_id (openSession db) chat_db_id = some c)
    (hsub : sub ∈ db.subscriptions) (href : sub.chat_id = chat_db_id) :
    execute_remove_chat_callback db chat_db_id = (db, .dbError .integrityError) ∧
    RemoveOutcome.dbError .integrityError ≠ RemoveOutcome.chatNotFound ∧
    RemoveOutcome.dbError .integrityError ≠ RemoveOutcome.removed ∧
    c ∈ db.chats := by
  refine ⟨?_, by decide, by decide, List.mem_of_find?_eq_some hchat⟩
  have hcheck := checkStore_delete_referenced db chat_db_id sub hsub href
  have hchat2 : get_chat_by_id { db := db, cur := db } chat_db_id = some c := hchat
  simp only [execute_remove_chat_callback, delete_chat_by_id, commitE, openSession,
    hchat2, hcheck]
  simp

/-- Witness for C9: removing chat 1 from the store whose pending
subscription references it fails with the integrity error and leaves the
store unchanged. -/
theorem c9_delete_referenced_chat_blocked_witness :
    execute_remove_chat_callback exStorePending 1 =
      (exStorePending, .dbError .integrityError) :=
  (c9_delete_referenced_chat_blocked exStorePending 1 exInactiveChat exPendingSub
    (by decide) (by decide) (by decide)).1

lemma confirm_store_unchanged (db : Store) (tid : Int) (subId : Nat) :
    (confirm_payment_callback db tid subId).1 = db := by
  rcases h : get_subscription_by_id (openSession db) subId with _ | v <;>
    simp only [confirm_payment_callback, h]

lemma commitE_cases (s : Session) :
    commitE s = .ok { db := s.cur, cur := s.cur } ∨
    commitE s = .error .integrityError := by
  unfold commitE
  split
  · exact Or.inl rfl
  · exact Or.inr rfl

lemma get_user_frame (db : Store) (tid : Int) (s1 : Session) (u1 : User)
    (h : get_user_by_telegram_id (openSession db) tid = .ok (s1, u1)) :
    s1.cur.subscriptions = db.subscriptions ∧
    s1.db.subscriptions = db.subscriptions := by
  rcases hf : db.users.find? (fun u => u.telegram_id == tid) with _ | u
  · simp only [get_user_by_telegram_id, openSession, hf] at h
    rcases commitE_cases (Session.mk db
        (Store.mk (db.users ++ [freshUser db tid]) db.chats db.subscriptions))
      with hc | hc
    · rw [hc] at h
      injection h with h2
      have hs1 : s1 = Session.mk
          (Store.mk (db.users ++ [freshUser db tid]) db.chats db.subscriptions)
          (Store.mk (db.users ++ [freshUser db tid]) db.chats db.subscriptions) :=
        (congrArg Prod.fst h2).symm
      rw [hs1]
      exact ⟨rfl, rfl⟩
    · rw [hc] at h
      cases h
  · simp only [get_user_by_telegram_id, openSession, hf] at h
    injection h with h2
    have hs1 : s1 = openSession db := (congrArg Prod.fst h2).symm
    rw [hs1]
    exact ⟨rfl, rfl⟩

lemma select_subs_shape (db : Store) (caller : CallerInfo) (chat_id : Nat)
    (now : Int) (uuidHex : String) :
    ∃ tail, (select_chat_callback db caller chat_id now uuidHex).1.subscriptions =
      db.subscriptions ++ tail := by
  rcases hchat : get_chat_by_id (openSession db) chat_id with _ | c
  · refine ⟨[], ?_⟩
    simp only [select_chat_callback, hchat]
    simp
  · rcases hg : get_user_by_telegram_id (openSession db) caller.telegram_id
      with e | p
    · refine ⟨[], ?_⟩
      simp only [select_chat_callback, hchat, hg]
      simp
    · rcases p with ⟨s1, u1⟩
      obtain ⟨hcs1, hds1⟩ := get_user_frame db caller.telegram_id s1 u1 hg
      set u1T : User :=
        { u1 with username := touchName u1.username caller.username,
                  first_name := touchName u1.first_name caller.first_name,
                  last_name := touchName u1.last_name caller.last_name } with hu1T
      set usersT := s1.cur.users.map (fun w => if w.id == u1.id then u1T else w)
        with husersT
      set s2 : Session := { s1 with cur := { s1.cur with users := usersT } }
        with hs2
      set r := create_subscription s2 u1.id c.id 30 now "pending_payment"
        (some (mkPaymentRef uuidHex))
        (some { generated_wallet := c.crypto_wallet_address,
                network := c.crypto_network,
                reference := mkPaymentRef uuidHex }) with hr
      have hsel : select_chat_callback db caller chat_id now uuidHex =
          (match commitE r.1 with
           | .ok s4 => (s4.db, .created r.2)
           | .error _ => (r.1.db, .dbError)) := by
        simp only [select_chat_callback, hchat, hg]
      rcases commitE_cases r.1 with hc | hc
      · refine ⟨[r.2], ?_⟩
        rw [hsel, hc]
        show r.1.cur.subscriptions = _
        show s2.cur.subscriptions ++ [r.2] = _
        rw [show s2.cur.subscriptions = db.subscriptions from hcs1]
      · refine ⟨[], ?_⟩
        rw [hsel, hc]
        show r.1.db.subscriptions = _
        rw [show r.1.db.subscriptions = db.subscriptions from hds1]
        simp

lemma remove_subs_eq (db : Store) (chat_db_id : Nat) :
    (execute_remove_chat_callback db chat_db_id).1.subscriptions =
      db.subscriptions := by
  rcases hchat : get_chat_by_id (openSession db) chat_db_id with _ | c
  · have hchat2 : get_chat_by_id { db := db, cur := db } chat_db_id = none := hchat
    simp [execute_remove_chat_callback, delete_chat_by_id, openSession, hchat2]
  · have hchat2 : get_chat_by_id { db := db, cur := db } chat_db_id = some c :=
      hchat
    simp only [execute_remove_chat_callback, delete_chat_by_id, openSession, hchat2]
    rcases commitE_cases (Session.mk db (Store.mk db.users
        (db.chats.filter (fun c => !(c.id == chat_db_id))) db.subscriptions))
      with hc | hc <;> (rw [hc]; try rfl)

lemma toggle_subs_eq (db : Store) (chat_db_id : Nat) :
    (toggle_chat_status_callback db chat_db_id).subscriptions =
      db.subscriptions := by
  rcases hchat : get_chat_by_id (openSession db) chat_db_id with _ | c
  · have hchat2 : get_chat_by_id { db := db, cur := db } chat_db_id = none := hchat
    simp [toggle_chat_status_callback, openSession, hchat2]
  · have hchat2 : get_chat_by_id { db := db, cur := db } chat_db_id = some c :=
      hchat
    simp only [toggle_chat_status_callback, update_chat_details, openSession,
      hchat2]
    rcases commitE_cases (Session.mk db (Store.mk db.users
        (db.chats.map (fun c2 => if c2.id == chat_db_id then
          applyChatPatch { is_active := some (!c.is_active) } c2 else c2))
        db.subscriptions)) with hc | hc <;> (rw [hc]; try rfl)

lemma upsert_subs_eq (db : Store) (tcid : Int) (title : String) (amt : Int)
    (curr : String) (wallet network : Option String) :
    (confirm_create_chat_callback db tcid title amt curr wallet network).subscriptions
      = db.subscriptions := by
  rcases hfind : db.chats.find? (fun c => c.telegram_chat_id == tcid) with _ | ex
  · simp only [confirm_create_chat_callback, create_chat, openSession, hfind]
    rcases commitE_cases (Session.mk db (Store.mk db.users
        (db.chats ++ [Chat.mk (nextChatId db) tcid title amt curr wallet network
          true]) db.subscriptions)) with hc | hc <;> rw [hc]
  · simp only [confirm_create_chat_callback, create_chat, openSession, hfind]
    rcases commitE_cases (Session.mk db (Store.mk db.users
        (db.chats.map (fun c => if c.telegram_chat_id == tcid then
          Chat.mk ex.id ex.telegram_chat_id title amt curr wallet network true
          else c)) db.subscriptions)) with hc | hc <;> rw [hc]

/-- C2: subscription status transitions are monotonic — no modelled
operation (chat selection, payment confirmation, reminder dispatch, expiry
sweep, chat removal, chat activity toggle, chat upsert) ever moves a
subscription whose status is `expired` or `cancelled` to any other status;
in particular, after every confirm-payment request such a status is
unchanged.  For the confirm handler this holds because the `NameError` at
`handlers.py` line 250 aborts every confirmation before the activation at
line 262 can run; the sweep only flips rows that are `active`; the
remaining operations never write the subscriptions relation.  The
primary-key hypothesis reflects `models.py`. -/
theorem c2_status_monotonic (op : Op) (db : Store)
    (hids : (db.subscriptions.map (·.id)).Nodup) (i : Nat) (s : Subscription)
    (hfind : findSub db i = some s)
    (hstat : s.status = "expired" ∨ s.status = "cancelled") :
    ∃ s2, findSub (runOp op db) i = some s2 ∧ s2.status = s.status := by
  cases op with
  | selectChat caller chat_id now uuidHex =>
    obtain ⟨tail, htail⟩ := select_subs_shape db caller chat_id now uuidHex
    refine ⟨s, ?_, rfl⟩
    show ((select_chat_callback db caller chat_id now uuidHex).1.subscriptions).find?
      (fun t => t.id == i) = some s
    rw [htail, List.find?_append,
      show db.subscriptions.find? (fun t => t.id == i) = some s from hfind]
    rfl
  | confirmPayment tid subId =>
    refine ⟨s, ?_, rfl⟩
    show findSub (confirm_payment_callback db tid subId).1 i = some s
    rw [confirm_store_unchanged]
    exact hfind
  | expirySweep now notifyOk =>
    refine ⟨if s.status = "active" ∧ s.end_date ≤ now
            then { s with status := "expired" } else s,
      sweep_findSub db now notifyOk hids i s hfind, ?_⟩
    have hcond : ¬ (s.status = "active" ∧ s.end_date ≤ now) := by
      rintro ⟨ha, _⟩
      rcases hstat with h | h <;> rw [h] at ha <;> exact absurd ha (by decide)
    rw [if_neg hcond]
  | reminders d n f => exact ⟨s, hfind, rfl⟩
  | removeChat chatId =>
    refine ⟨s, ?_, rfl⟩
    show ((execute_remove_chat_callback db chatId).1.subscriptions).find?
      (fun t => t.id == i) = some s
    rw [remove_subs_eq]
    exact hfind
  | toggleChat chatId =>
    refine ⟨s, ?_, rfl⟩
    show ((toggle_chat_status_callback db chatId).subscriptions).find?
      (fun t => t.id == i) = some s
    rw [toggle_subs_eq]
    exact hfind
  | upsertChat tcid title amt curr wallet network =>
    refine ⟨s, ?_, rfl⟩
    show ((confirm_create_chat_callback db tcid title amt curr wallet
      network).subscriptions).find? (fun t => t.id == i) = some s
    rw [upsert_subs_eq]
    exact hfind

/-- Witness for C2 at a concrete input: a confirm-payment request on the
cancelled subscription 1 leaves its status `cancelled`. -/
theorem c2_status_monotonic_witness :
    ∃ s2, findSub (runOp (Op.confirmPayment 555 1) exStoreCancelled) 1 = some s2 ∧
      s2.status = exCancelledSub.status :=
  c2_status_monotonic (Op.confirmPayment 555 1) exStoreCancelled (by decide) 1
    exCancelledSub (by decide) (Or.inr (by decide))

end TradeLexx
